import Mathlib

/-!
Verification of the tardis-lights frontend (src/frontend/src/App.js and the
config-tab variant in src/unnamed/part_003) and of the section-addressable
effects engine described by the specification.  The React frontend is
translated function by function; the engine itself (SectionRegistry,
EffectScheduler, EffectKind library) is not part of the provided sources, so
those components are modelled from the specification, as marked on each
definition.
-/

/-- RGB triple with 8-bit-range channels, as produced by hexToRgb. -/
structure Rgb where
  r : Nat
  g : Nat
  b : Nat
deriving DecidableEq, Repr

/-- Character class of the regex bracket [a-f\d] under the i flag:
decimal digits, lowercase a-f, uppercase A-F. -/
def isHexDigitJs (c : Char) : Bool :=
  c.isDigit || (decide (97 ≤ c.toNat) && decide (c.toNat ≤ 102)) ||
    (decide (65 ≤ c.toNat) && decide (c.toNat ≤ 70))

/-- Numeric value of a hexadecimal digit character, as used by
parseInt with radix 16 (and radix 10 on plain digits). -/
def hexVal (c : Char) : Nat :=
  if c.isDigit then c.toNat - 48
  else if decide (97 ≤ c.toNat) && decide (c.toNat ≤ 102) then c.toNat - 97 + 10
  else c.toNat - 65 + 10

/-- The optional leading hash of the regex, anchored at the start:
a single # is consumed when present. -/
def stripHash (l : List Char) : List Char :=
  match l with
  | [] => []
  | c :: rest => if c = '#' then rest else c :: rest

/-- Embedding of the anchored regex from hexToRgb: after the optional #,
exactly six hex digits must remain; on a match the six digit characters are
returned (the three capture groups, flattened). -/
def hexMatch (s : String) : Option (List Char) :=
  let t := stripHash s.data
  if t.length == 6 && t.all isHexDigitJs then some t else none

/-- hexToRgb from src/frontend/src/App.js lines 4-11: on a regex match each
two-digit capture group is parsed with radix 16; otherwise the fallback
object with all channels 0 is returned. -/
def hexToRgb (s : String) : Rgb :=
  match hexMatch s with
  | some t =>
      ⟨16 * hexVal (t.getD 0 ' ') + hexVal (t.getD 1 ' '),
       16 * hexVal (t.getD 2 ' ') + hexVal (t.getD 3 ' '),
       16 * hexVal (t.getD 4 ' ') + hexVal (t.getD 5 ' ')⟩
  | none => ⟨0, 0, 0⟩

/-- The shape accepted by hexToRgb's regex: an optional leading # followed by
exactly six hex digits. -/
def hexShape (s : String) : Bool :=
  (stripHash s.data).length == 6 && (stripHash s.data).all isHexDigitJs

/-- One hexadecimal digit character for a value below 16, lowercase or
uppercase (both are accepted by the case-insensitive regex). -/
def hexDigit (upper : Bool) (n : Nat) : Char :=
  if n < 10 then Char.ofNat (48 + n)
  else if upper then Char.ofNat (65 + n - 10) else Char.ofNat (97 + n - 10)

/-- Two-hex-digit encoding of a channel value below 256. -/
def hex2 (upper : Bool) (n : Nat) : List Char :=
  [hexDigit upper (n / 16), hexDigit upper (n % 16)]

/-- The six-hex-digit encoding of an RGB triple, with or without a leading
hash, in lowercase or uppercase digits. -/
def encodeHex (hash upper : Bool) (r g b : Nat) : String :=
  String.mk ((if hash then ['#'] else []) ++ hex2 upper r ++ hex2 upper g ++ hex2 upper b)

/-- ASCII whitespace skipped by parseInt before reading the number. -/
def jsWhitespace (c : Char) : Bool :=
  c = ' ' || c = '\t' || c = '\n' || c = '\r'

/-- Accumulate the value of a digit string in the given radix, most
significant digit first. -/
def digitsToNat (radix : Nat) (l : List Char) : Nat :=
  l.foldl (fun acc c => acc * radix + hexVal c) 0

/-- JavaScript parseInt(value) followed by the || 0 fallback, as in
updateSection: leading whitespace is skipped, an optional sign is read, a
0x or 0X prefix selects radix 16 (otherwise radix 10), and the longest
prefix of digits is converted; if no digit is found the NaN result is
replaced by 0 by the || 0 guard. -/
def jsParseIntOr0 (s : String) : Int :=
  let t := s.data.dropWhile jsWhitespace
  let signed : Int × List Char :=
    match t with
    | '-' :: r => (-1, r)
    | '+' :: r => (1, r)
    | _ => (1, t)
  let based : Nat × List Char :=
    match signed.2 with
    | '0' :: 'x' :: r => (16, r)
    | '0' :: 'X' :: r => (16, r)
    | _ => (10, signed.2)
  let digits := based.2.takeWhile (fun c => if based.1 = 16 then isHexDigitJs c else c.isDigit)
  if digits.isEmpty then 0 else signed.1 * (digitsToNat based.1 digits : Int)

/-- One row of the config tab's section list (src/unnamed/part_003): a name
and a pixel count; the start value is never stored, it is derived. -/
structure CfgSection where
  name : String
  count : Int
deriving DecidableEq, Repr

instance : Inhabited CfgSection := ⟨⟨"", 0⟩⟩

/-- The two fields updateSection is called with from the config table. -/
inductive CfgField
  | name
  | count
deriving DecidableEq, Repr

/-- The object spread in updateSection: the addressed field is replaced, and
for the count field the raw input string goes through parseInt(value) || 0. -/
def setField (s : CfgSection) (f : CfgField) (value : String) : CfgSection :=
  match f with
  | .name => ⟨value, s.count⟩
  | .count => ⟨s.name, jsParseIntOr0 value⟩

/-- updateSection from src/unnamed/part_003 lines 284-289: map over the list
with index, rewriting only the row at the given index. -/
def updateSection (sections : List CfgSection) (index : Nat) (f : CfgField) (value : String) :
    List CfgSection :=
  sections.mapIdx (fun i s => if i = index then setField s f value else s)

/-- moveSection from src/unnamed/part_003 lines 291-297: the destination
index is index + direction; when it falls outside the list the call returns
with the list unchanged, otherwise the two entries are swapped (the
destructuring assignment reads both old values before writing). -/
def moveSection (sections : List CfgSection) (index : Nat) (direction : Int) : List CfgSection :=
  let newIndex : Int := (index : Int) + direction
  if newIndex < 0 ∨ (sections.length : Int) ≤ newIndex then sections
  else
    (sections.set index (sections.getD newIndex.toNat default)).set newIndex.toNat
      (sections.getD index default)

/-- addSection from src/unnamed/part_003 lines 276-278: a fresh row named
New Section with count 0 is appended. -/
def addSection (sections : List CfgSection) : List CfgSection :=
  sections ++ [⟨"New Section", 0⟩]

/-- The derived start of the row at the given index, computed in the config
table render (src/unnamed/part_003 line 440) as the sum of the counts of all
preceding rows. -/
def startAt (sections : List CfgSection) (index : Nat) : Int :=
  ((sections.take index).map (fun s => s.count)).sum

/-- totalLeds from src/unnamed/part_003 line 313: the sum of all counts. -/
def totalLeds (sections : List CfgSection) : Int :=
  (sections.map (fun s => s.count)).sum

/-- One entry of the ledFunctions table (src/frontend/src/App.js
lines 265-275): button label, endpoint, and the parameter names the row
collects. -/
structure LedFunction where
  label : String
  endpoint : String
  params : List String
deriving DecidableEq, Repr

/-- The ledFunctions table itself. -/
def ledFunctions : List LedFunction :=
  [⟨"Pulse Color", "/led/pulse", ["section", "color", "duration"]⟩,
   ⟨"Rainbow", "/led/rainbow", ["section", "duration"]⟩,
   ⟨"Fade to Color", "/led/fade", ["section", "color", "duration"]⟩,
   ⟨"Breath", "/led/breath", ["section", "color", "period", "count"]⟩,
   ⟨"Wipe", "/led/wipe", ["section", "color", "direction", "speed"]⟩,
   ⟨"Chase", "/led/chase", ["section", "color", "spacing", "speed", "count"]⟩,
   ⟨"Sparkle", "/led/sparkle", ["section", "color", "density", "duration"]⟩,
   ⟨"Flicker", "/led/flicker", ["section", "color", "intensity", "duration"]⟩,
   ⟨"Strobe", "/led/strobe", ["section", "color", "frequency", "duration"]⟩]

/-- A value placed into the request body by TestRow.handleClick: the color
key carries an RGB triple (hexToRgb of the picker), the numeric keys carry
parseFloat or parseInt results, section and direction carry strings. -/
inductive BodyVal
  | rgbVal (c : Rgb)
  | numVal (q : ℚ)
  | intVal (n : Int)
  | strVal (s : String)
deriving DecidableEq, Repr

/-- The per-row input state of TestRow (its useState hooks). -/
structure RowState where
  sectionSel : String
  colorHex : String
  duration : ℚ
  period : ℚ
  speed : ℚ
  intensity : ℚ
  frequency : ℚ
  count : Int
  spacing : Int
  density : Int
  direction : String
deriving DecidableEq, Repr

/-- TestRow.handleClick (src/frontend/src/App.js lines 29-46): the body is
built key by key, each key present exactly when it is listed in the row's
params, in the fixed order of the if chain. -/
def handleClickBody (params : List String) (st : RowState) : List (String × BodyVal) :=
  (if params.contains "section" then [("section", BodyVal.strVal st.sectionSel)] else []) ++
  (if params.contains "color" then [("color", BodyVal.rgbVal (hexToRgb st.colorHex))] else []) ++
  (if params.contains "duration" then [("duration", BodyVal.numVal st.duration)] else []) ++
  (if params.contains "period" then [("period", BodyVal.numVal st.period)] else []) ++
  (if params.contains "count" then [("count", BodyVal.intVal st.count)] else []) ++
  (if params.contains "direction" then [("direction", BodyVal.strVal st.direction)] else []) ++
  (if params.contains "speed" then [("speed", BodyVal.numVal st.speed)] else []) ++
  (if params.contains "spacing" then [("spacing", BodyVal.intVal st.spacing)] else []) ++
  (if params.contains "density" then [("density", BodyVal.intVal st.density)] else []) ++
  (if params.contains "intensity" then [("intensity", BodyVal.numVal st.intensity)] else []) ++
  (if params.contains "frequency" then [("frequency", BodyVal.numVal st.frequency)] else [])

/-- The piece of App state the API helper writes: the displayed status. -/
structure AppState where
  status : String
deriving DecidableEq, Repr

/-- Outcome of the fetch in callAPI, as observable by the surrounding code:
either the parsed JSON response (with the rendered value of its status
field, when the field is present, and its serialization), or a thrown
error's message. -/
inductive FetchOutcome
  | success (statusField : Option String) (serialized : String)
  | failure (message : String)
deriving DecidableEq, Repr

/-- JavaScript's a || b on the status field: an absent or empty (falsy)
status falls back to the serialized response. -/
def jsOrElse (v : Option String) (fallback : String) : String :=
  match v with
  | some s => if s = "" then fallback else s
  | none => fallback

/-- callAPI from src/frontend/src/App.js lines 173-197, state transition on
the displayed status: on success setStatus(data.status || JSON.stringify(data)),
on a thrown error setStatus of the error message. -/
def callAPI (_st : AppState) (o : FetchOutcome) : AppState :=
  match o with
  | .success statusField serialized => ⟨jsOrElse statusField serialized⟩
  | .failure message => ⟨"Error: " ++ message⟩

/-- One element of the /api/led/sections response used by fetchSections. -/
structure ApiSection where
  name : String
deriving DecidableEq, Repr

/-- fetchSections (src/frontend/src/App.js lines 215-223): the control-tab
section list is the literal All followed by the fetched section names. -/
def fetchSectionsList (data : List ApiSection) : List String :=
  "All" :: data.map (fun s => s.name)

/-- Modelled from the spec: a stored section of the SectionRegistry (name
and count; start is derived).  The registry implementation is not among the
provided sources. -/
structure RegSection where
  name : String
  count : Int
deriving DecidableEq, Repr

/-- Names of a stored section list, in order. -/
def regNames (l : List RegSection) : List String :=
  l.map (fun s => s.name)

/-- Modelled from the spec: the derived start of the stored section at the
given index, the sum of the counts of all preceding sections in order. -/
def regStart (l : List RegSection) (index : Nat) : Int :=
  ((l.take index).map (fun s => s.count)).sum

/-- Total pixel count claimed by a stored section list. -/
def regTotal (l : List RegSection) : Int :=
  (l.map (fun s => s.count)).sum

/-- Modelled from the spec: the two configuration error kinds of replaceAll
(ConfigInvalid for duplicate or empty names and negative counts,
ConfigOverflow when the total exceeds the strip length). -/
inductive ConfigError
  | invalid
  | overflow
deriving DecidableEq, Repr

/-- Modelled from the spec: the validity condition replaceAll checks on a
new section list — names unique and non-empty, counts non-negative, total
count at most the physical pixel count N. -/
def validConfig (N : Nat) (newList : List RegSection) : Prop :=
  (regNames newList).Nodup ∧ (∀ n ∈ regNames newList, n ≠ "") ∧
    (∀ s ∈ newList, 0 ≤ s.count) ∧ regTotal newList ≤ (N : Int)

/-- Modelled from the spec: SectionRegistry.replaceAll.  The new list is
validated synchronously (names unique and non-empty, counts non-negative,
total at most N); on failure the stored list is returned untouched together
with the error, on success the whole new list is installed.  The registry
implementation is not among the provided sources. -/
def replaceAll (N : Nat) (stored newList : List RegSection) :
    List RegSection × Option ConfigError :=
  if ¬ ((regNames newList).Nodup ∧ ∀ n ∈ regNames newList, n ≠ "") then
    (stored, some ConfigError.invalid)
  else if ¬ (∀ s ∈ newList, 0 ≤ s.count) then
    (stored, some ConfigError.invalid)
  else if (N : Int) < regTotal newList then
    (stored, some ConfigError.overflow)
  else
    (newList, none)

/-- Modelled from the spec: SectionRegistry.resolve.  The pseudo-section All
resolves to the whole strip before the stored list is consulted; a named
section resolves to its derived start and its count; an unknown name yields
none.  The registry implementation is not among the provided sources. -/
def resolve (N : Nat) (l : List RegSection) (nm : String) : Option (Int × Int) :=
  if nm = "All" then some (0, (N : Int))
  else
    match l.findIdx? (fun s => s.name == nm) with
    | some i => some (regStart l i, (l.getD i ⟨"", 0⟩).count)
    | none => none

/-- Modelled from the spec: the closed set of effect kinds of the EffectKind
library (§4.2).  The library implementation is not among the provided
sources. -/
inductive EffectKind
  | on
  | off
  | color
  | pulse
  | rainbow
  | fade
  | breath
  | wipe
  | chase
  | sparkle
  | flicker
  | strobe
deriving DecidableEq, Repr

/-- Modelled from the spec: the union of the per-kind parameter records of
§4.2 (each kind reads only its own parameters). -/
structure EffectParams where
  rgb : Rgb
  duration : ℚ
  period : ℚ
  speed : ℚ
  intensity : ℚ
  frequency : ℚ
  density : ℚ
  reps : Nat
  spacing : Nat
  forward : Bool
  seed : Nat
deriving DecidableEq, Repr

/-- Floor of a rational clamped at zero, used to land brightness
computations back on 8-bit channels. -/
def natOf (q : ℚ) : Nat :=
  (⌊q⌋).toNat

/-- Clamp a rational into the unit interval. -/
def clamp01 (q : ℚ) : ℚ :=
  max 0 (min 1 q)

/-- Fractional part of a rational. -/
def fracPart (q : ℚ) : ℚ :=
  q - ⌊q⌋

/-- Scale every channel of a color by a unit-interval factor. -/
def scaleRgb (c : Rgb) (f : ℚ) : Rgb :=
  ⟨natOf ((c.r : ℚ) * clamp01 f), natOf ((c.g : ℚ) * clamp01 f), natOf ((c.b : ℚ) * clamp01 f)⟩

/-- Linear interpolation between two colors by a unit-interval factor. -/
def blendRgb (a b : Rgb) (f : ℚ) : Rgb :=
  ⟨natOf ((a.r : ℚ) * (1 - clamp01 f) + (b.r : ℚ) * clamp01 f),
   natOf ((a.g : ℚ) * (1 - clamp01 f) + (b.g : ℚ) * clamp01 f),
   natOf ((a.b : ℚ) * (1 - clamp01 f) + (b.b : ℚ) * clamp01 f)⟩

/-- A simple full-saturation hue wheel on the unit interval, used by the
rainbow kind. -/
def hueRgb (h : ℚ) : Rgb :=
  let u := fracPart h
  if u < 1 / 3 then ⟨natOf (255 * (1 - 3 * u)), natOf (255 * (3 * u)), 0⟩
  else if u < 2 / 3 then ⟨0, natOf (255 * (2 - 3 * u)), natOf (255 * (3 * u - 1))⟩
  else ⟨natOf (255 * (3 * u - 2)), 0, natOf (255 * (3 - 3 * u))⟩

/-- Deterministic per-instance pseudo-random source for the randomized
kinds, seeded so that repeated renders of the same tick agree. -/
def randHash (seed i t : Nat) : Nat :=
  (seed + i * 7919 + t * 104729) % 1000

/-- The elapsed/duration progress ratio; a non-positive duration counts as
already complete (progress 1), per the numeric edge policy of §4.2. -/
def progress (elapsed duration : ℚ) : ℚ :=
  if duration ≤ 0 then 1 else clamp01 (elapsed / duration)

/-- Modelled from the spec: the pure per-pixel render function of each
effect kind of §4.2, given the section pixel count, the elapsed time, the
parameters, the section's colors at effect start (used by fade), and the
pixel index within the section.  Smooth envelopes are modelled
piecewise-linearly.  The library implementation is not among the provided
sources. -/
def pixelAt (k : EffectKind) (n : Nat) (elapsed : ℚ) (p : EffectParams) (prev : List Rgb)
    (i : Nat) : Rgb :=
  match k with
  | .on => p.rgb
  | .off => ⟨0, 0, 0⟩
  | .color => p.rgb
  | .pulse => scaleRgb p.rgb (progress elapsed p.duration)
  | .rainbow => hueRgb ((i : ℚ) / (max n 1 : Nat) + progress elapsed p.duration)
  | .fade => blendRgb (prev.getD i ⟨0, 0, 0⟩) p.rgb (progress elapsed p.duration)
  | .breath => scaleRgb p.rgb (1 - |2 * fracPart (if p.period ≤ 0 then 1 else elapsed / p.period) - 1|)
  | .wipe =>
      let lit := natOf (elapsed * p.speed)
      if p.forward then (if i < lit then p.rgb else ⟨0, 0, 0⟩)
      else (if n - lit ≤ i then p.rgb else ⟨0, 0, 0⟩)
  | .chase =>
      let pos := natOf (elapsed * p.speed)
      if (i + pos) % (p.spacing + 1) = 0 then p.rgb else ⟨0, 0, 0⟩
  | .sparkle =>
      if randHash p.seed i (natOf (elapsed * 1000)) < natOf (p.density * 10) then p.rgb
      else ⟨0, 0, 0⟩
  | .flicker =>
      scaleRgb p.rgb (1 - clamp01 p.intensity * ((randHash p.seed i (natOf (elapsed * 1000)) : ℚ) / 1000))
  | .strobe =>
      if natOf (elapsed * p.frequency * 2) % 2 = 0 then p.rgb else ⟨0, 0, 0⟩

/-- Modelled from the spec: render of one effect kind over a whole section,
one color per pixel of the section. -/
def renderKind (k : EffectKind) (n : Nat) (elapsed : ℚ) (p : EffectParams) (prev : List Rgb) :
    List Rgb :=
  (List.range n).map (fun i => pixelAt k n elapsed p prev i)

/-- Modelled from the spec: the scheduler's write of a rendered section into
the pixel buffer at the section's resolved start; pixels before the start
and pixels past the rendered sequence are carried over untouched. -/
def writeRange : List Rgb → Nat → List Rgb → List Rgb
  | [], _, _ => []
  | b :: bs, s + 1, cs => b :: writeRange bs s cs
  | b :: bs, 0, cs =>
      match cs with
      | [] => b :: bs
      | c :: cs0 => c :: writeRange bs 0 cs0

/-- Modelled from the spec: one tick's render of a single active section
instance into the pixel buffer, through the section's resolved range
(start, count).  The engine implementation is not among the provided
sources. -/
def tickSection (buf : List Rgb) (start count : Nat) (k : EffectKind) (elapsed : ℚ)
    (p : EffectParams) : List Rgb :=
  writeRange buf start (renderKind k count elapsed p ((buf.drop start).take count))

/-- Modelled from the spec: an active effect instance of the scheduler. -/
structure EffectInstance where
  kind : EffectKind
  params : EffectParams
  startTime : ℚ
deriving DecidableEq, Repr

/-- Modelled from the spec: the scheduler error kinds relevant to start. -/
inductive SchedulerError
  | unknownSection
  | invalidParameter
deriving DecidableEq, Repr

/-- The scheduler's instance map: at most one active instance per section
name, looked up by name. -/
abbrev InstanceMap := List (String × EffectInstance)

/-- Modelled from the spec: EffectScheduler.start.  Starting All clears
every named-section instance atomically before installing the All instance;
starting a known named section preempts only that section's own instance
and leaves every other entry (All included) in place; an unknown name
fails with UnknownSection and leaves the map untouched.  The scheduler
implementation is not among the provided sources. -/
def schedStart (known : List String) (m : InstanceMap) (nm : String) (inst : EffectInstance) :
    InstanceMap × Option SchedulerError :=
  if nm = "All" then ([("All", inst)], none)
  else if known.contains nm then
    ((m.filter (fun q => q.1 != nm)) ++ [(nm, inst)], none)
  else (m, some SchedulerError.unknownSection)

/-- A concrete parameter record used by the concrete instantiations below. -/
def sampleParams : EffectParams :=
  ⟨⟨255, 0, 0⟩, 1, 1, 1, 1, 1, 1, 3, 2, true, 0⟩

/-- A concrete effect instance used by the concrete instantiations below. -/
def sampleInstance : EffectInstance :=
  ⟨EffectKind.color, sampleParams, 0⟩

/-- A second concrete effect instance, distinguishable from the first. -/
def sampleInstance2 : EffectInstance :=
  ⟨EffectKind.pulse, sampleParams, 2⟩

set_option maxHeartbeats 2000000 in
/-- C5: every effect-start command of the LED Functions tab carries exactly
the parameters of the §4.2 table for its kind, plus the target section; the
rgb parameter travels under the body key color, as an RGB triple obtained
from the row's color picker via hexToRgb.  The body's keys appear in the
fixed order of the handleClick if chain, so the first conjunct lists them in
that order; the second conjunct states that they are exactly the row's
declared params (as a permutation), whose per-endpoint lists the third
conjunct spells out in the table's order. -/
theorem C5_effect_command_params (st : RowState) :
    (ledFunctions.map (fun f => (f.endpoint, (handleClickBody f.params st).map Prod.fst)) =
      [("/led/pulse", ["section", "color", "duration"]),
       ("/led/rainbow", ["section", "duration"]),
       ("/led/fade", ["section", "color", "duration"]),
       ("/led/breath", ["section", "color", "period", "count"]),
       ("/led/wipe", ["section", "color", "direction", "speed"]),
       ("/led/chase", ["section", "color", "count", "speed", "spacing"]),
       ("/led/sparkle", ["section", "color", "duration", "density"]),
       ("/led/flicker", ["section", "color", "duration", "intensity"]),
       ("/led/strobe", ["section", "color", "duration", "frequency"])]) ∧
    (∀ f ∈ ledFunctions, ((handleClickBody f.params st).map Prod.fst).Perm f.params) ∧
    (ledFunctions.map (fun f => (f.endpoint, f.params)) =
      [("/led/pulse", ["section", "color", "duration"]),
       ("/led/rainbow", ["section", "duration"]),
       ("/led/fade", ["section", "color", "duration"]),
       ("/led/breath", ["section", "color", "period", "count"]),
       ("/led/wipe", ["section", "color", "direction", "speed"]),
       ("/led/chase", ["section", "color", "spacing", "speed", "count"]),
       ("/led/sparkle", ["section", "color", "density", "duration"]),
       ("/led/flicker", ["section", "color", "intensity", "duration"]),
       ("/led/strobe", ["section", "color", "frequency", "duration"])]) ∧
    (∀ f ∈ ledFunctions, f.params.contains "color" = true →
      (handleClickBody f.params st).lookup "color" =
        some (BodyVal.rgbVal (hexToRgb st.colorHex))) := by
  refine ⟨rfl, ?_, rfl, ?_⟩
  · intro f hf
    fin_cases hf
    · exact show (["section", "color", "duration"] : List String).Perm
        ["section", "color", "duration"] by decide
    · exact show (["section", "duration"] : List String).Perm
        ["section", "duration"] by decide
    · exact show (["section", "color", "duration"] : List String).Perm
        ["section", "color", "duration"] by decide
    · exact show (["section", "color", "period", "count"] : List String).Perm
        ["section", "color", "period", "count"] by decide
    · exact show (["section", "color", "direction", "speed"] : List String).Perm
        ["section", "color", "direction", "speed"] by decide
    · exact show (["section", "color", "count", "speed", "spacing"] : List String).Perm
        ["section", "color", "spacing", "speed", "count"] by decide
    · exact show (["section", "color", "duration", "density"] : List String).Perm
        ["section", "color", "density", "duration"] by decide
    · exact show (["section", "color", "duration", "intensity"] : List String).Perm
        ["section", "color", "intensity", "duration"] by decide
    · exact show (["section", "color", "duration", "frequency"] : List String).Perm
        ["section", "color", "frequency", "duration"] by decide
  · intro f hf
    fin_cases hf <;> intro h <;> first | rfl | simp at h

/-- C5 witness: the pulse row's body carries the picker color as an RGB
triple under the color key. -/
theorem C5_witness :
    (handleClickBody ["section", "color", "duration"]
        ⟨"All", "#ff0000", 1, 5, 1/10, 1/2, 10, 3, 3, 5, "forward"⟩).lookup "color" =
      some (BodyVal.rgbVal (hexToRgb "#ff0000")) := by
  have h := (C5_effect_command_params
    ⟨"All", "#ff0000", 1, 5, 1/10, 1/2, 10, 3, 3, 5, "forward"⟩).2.2.2
    ⟨"Pulse Color", "/led/pulse", ["section", "color", "duration"]⟩ (by decide) (by decide)
  exact h

/-- C7: every invocation of the API-call helper updates the displayed
status regardless of its prior value — to the response's status field when
that is truthy, to the serialized response otherwise, and to an error
message when the fetch throws; no outcome leaves the status untouched. -/
theorem C7_callAPI_always_sets_status (st1 st2 : AppState) (o : FetchOutcome) :
    (callAPI st1 o).status = (callAPI st2 o).status ∧
    (∀ sf ser, o = FetchOutcome.success sf ser → (callAPI st1 o).status = jsOrElse sf ser) ∧
    (∀ m, o = FetchOutcome.failure m → (callAPI st1 o).status = "Error: " ++ m) := by
  refine ⟨?_, ?_, ?_⟩
  · cases o <;> rfl
  · intro sf ser h
    subst h
    rfl
  · intro m h
    subst h
    rfl

/-- C7 witness: a thrown fetch error is reported through the status. -/
theorem C7_witness :
    (callAPI ⟨"old status"⟩ (FetchOutcome.failure "network down")).status =
      "Error: " ++ "network down" :=
  (C7_callAPI_always_sets_status ⟨"old status"⟩ ⟨""⟩ (FetchOutcome.failure "network down")).2.2
    "network down" rfl

/-- C10: updateSection changes only field f of the row at the given index —
for the count field the stored value is the integer parse of the input with
fallback 0 — and every other row, and the other field of the addressed row,
is unchanged. -/
theorem C10_updateSection_pointwise (sections : List CfgSection) (index : Nat) (f : CfgField)
    (value : String) (j : Nat) (hj : j ≠ index) :
    (updateSection sections index f value).length = sections.length ∧
    (updateSection sections index f value)[j]? = sections[j]? ∧
    (updateSection sections index f value)[index]? =
      (sections[index]?).map (fun s => setField s f value) ∧
    (∀ s : CfgSection,
      (setField s CfgField.count value).count = jsParseIntOr0 value ∧
      (setField s CfgField.count value).name = s.name ∧
      (setField s CfgField.name value).name = value ∧
      (setField s CfgField.name value).count = s.count) := by
  refine ⟨List.length_mapIdx, ?_, ?_, fun s => ⟨rfl, rfl, rfl, rfl⟩⟩
  · rw [updateSection, List.getElem?_mapIdx]
    cases h : sections[j]? <;> simp [hj]
  · rw [updateSection, List.getElem?_mapIdx]
    cases h : sections[index]? <;> simp

/-- C10 witness: resizing row 0 leaves row 1 byte-identical and stores the
parsed count. -/
theorem C10_witness :
    (updateSection [⟨"Front", 50⟩, ⟨"Rear", 30⟩] 0 CfgField.count "42")[1]? =
      some ⟨"Rear", 30⟩ ∧
    (setField ⟨"Front", 50⟩ CfgField.count "42").count = 42 := by
  have h := C10_updateSection_pointwise [⟨"Front", 50⟩, ⟨"Rear", 30⟩] 0 CfgField.count "42" 1
    (by decide)
  refine ⟨?_, ?_⟩
  · rw [h.2.1]
    rfl
  · rw [(h.2.2.2 ⟨"Front", 50⟩).1]
    decide

/-- C6: the pseudo-section All is synthetic — resolve answers the whole
strip for it without consulting the stored list, the control-tab section
list is exactly All followed by the fetched configured names, and a newly
added config row is always named New Section, never All. -/
theorem C6_all_is_synthetic (N : Nat) (l : List RegSection) (data : List ApiSection)
    (cfg : List CfgSection) :
    resolve N l "All" = some (0, (N : Int)) ∧
    (fetchSectionsList data).head? = some "All" ∧
    (fetchSectionsList data).tail = data.map (fun s => s.name) ∧
    (∀ s ∈ addSection cfg, s ∉ cfg → s.name = "New Section") ∧
    ("New Section" : String) ≠ "All" := by
  refine ⟨by simp [resolve], rfl, rfl, ?_, by decide⟩
  intro s hs hns
  rcases List.mem_append.mp hs with h | h
  · exact absurd h hns
  · rw [List.mem_singleton.mp h]

/-- C6 witness: resolve at a concrete registry, and the concrete name of a
freshly added row. -/
theorem C6_witness :
    resolve 80 [⟨"Front", 50⟩, ⟨"Rear", 30⟩] "All" = some (0, 80) ∧
    ∀ s ∈ addSection [], s ∉ ([] : List CfgSection) → s.name = "New Section" := by
  have h := C6_all_is_synthetic 80 [⟨"Front", 50⟩, ⟨"Rear", 30⟩] [] []
  exact ⟨h.1, h.2.2.2.1⟩

/-- C4: replaceAll validates the new list synchronously — names unique and
non-empty, counts non-negative, total at most N — installing the whole list
on success and, on any validation failure, returning a config error with
the stored state untouched. -/
theorem C4_replaceAll_validation (N : Nat) (stored newList : List RegSection) :
    (validConfig N newList → replaceAll N stored newList = (newList, none)) ∧
    (¬ validConfig N newList →
      (replaceAll N stored newList).1 = stored ∧
        ∃ e, (replaceAll N stored newList).2 = some e) := by
  unfold validConfig replaceAll
  constructor
  · rintro ⟨h1, h2, h3, h4⟩
    rw [if_neg (not_not_intro ⟨h1, h2⟩), if_neg (not_not_intro h3), if_neg (not_lt.mpr h4)]
  · intro h
    by_cases h1 : (regNames newList).Nodup ∧ ∀ n ∈ regNames newList, n ≠ ""
    · by_cases h2 : ∀ s ∈ newList, 0 ≤ s.count
      · by_cases h3 : (N : Int) < regTotal newList
        · rw [if_neg (not_not_intro h1), if_neg (not_not_intro h2), if_pos h3]
          exact ⟨rfl, ConfigError.overflow, rfl⟩
        · exact absurd ⟨h1.1, h1.2, h2, not_lt.mp h3⟩ h
      · rw [if_neg (not_not_intro h1), if_pos h2]
        exact ⟨rfl, ConfigError.invalid, rfl⟩
    · rw [if_pos h1]
      exact ⟨rfl, ConfigError.invalid, rfl⟩

/-- C4 witness: a duplicate-name list is rejected and the stored list is
returned unchanged together with an error. -/
theorem C4_witness :
    (replaceAll 10 [⟨"Keep", 4⟩] [⟨"A", 5⟩, ⟨"A", 3⟩]).1 = [⟨"Keep", 4⟩] ∧
    ∃ e, (replaceAll 10 [⟨"Keep", 4⟩] [⟨"A", 5⟩, ⟨"A", 3⟩]).2 = some e := by
  refine (C4_replaceAll_validation 10 [⟨"Keep", 4⟩] [⟨"A", 5⟩, ⟨"A", 3⟩]).2 ?_
  intro h
  exact absurd h.1 (by decide)

/-- C9: moveSection never indexes out of bounds — moving the first row up
or the last row down returns with the list unchanged, and every in-range
move swaps exactly the entries at index and index + direction, leaving
every other entry in place. -/
theorem C9_moveSection_bounds (sections : List CfgSection) (index : Nat) (direction : Int)
    (hidx : index < sections.length) :
    (index = 0 → direction = -1 → moveSection sections index direction = sections) ∧
    (index = sections.length - 1 → direction = 1 →
      moveSection sections index direction = sections) ∧
    (∀ h0 : 0 ≤ (index : Int) + direction,
      ∀ hlt : (index : Int) + direction < (sections.length : Int),
      (moveSection sections index direction).length = sections.length ∧
      (moveSection sections index direction)[index]? =
        sections[((index : Int) + direction).toNat]? ∧
      (moveSection sections index direction)[((index : Int) + direction).toNat]? =
        sections[index]? ∧
      ∀ jj : Nat, jj ≠ index → jj ≠ ((index : Int) + direction).toNat →
        (moveSection sections index direction)[jj]? = sections[jj]?) := by
  refine ⟨?_, ?_, ?_⟩
  · rintro rfl rfl
    unfold moveSection
    rw [if_pos]
    left
    norm_num
  · rintro h1 rfl
    unfold moveSection
    rw [if_pos]
    right
    omega
  · intro h0 hlt
    have hnn : ((index : Int) + direction).toNat < sections.length := by omega
    have hnc : (((index : Int) + direction).toNat : Int) = (index : Int) + direction := by omega
    unfold moveSection
    rw [if_neg (by push_neg; omega)]
    refine ⟨by simp, ?_, ?_, ?_⟩
    · by_cases he : ((index : Int) + direction).toNat = index
      · rw [he, List.getElem?_set_self (by simpa using hidx),
          List.getD_eq_getElem sections default hidx, List.getElem?_eq_getElem hidx]
      · rw [List.getElem?_set_ne he, List.getElem?_set_self (by simpa using hidx),
          List.getD_eq_getElem sections default hnn, List.getElem?_eq_getElem hnn]
    · rw [List.getElem?_set_self (by simpa using hnn),
        List.getD_eq_getElem sections default hidx, List.getElem?_eq_getElem hidx]
    · intro jj hj1 hj2
      rw [List.getElem?_set_ne (Ne.symm hj2), List.getElem?_set_ne (Ne.symm hj1)]

/-- C9 witness: an in-range upward move of row 1 swaps rows 0 and 1 and the
guard cases leave the list unchanged. -/
theorem C9_witness :
    (moveSection [⟨"a", 1⟩, ⟨"b", 2⟩, ⟨"c", 3⟩] 1 (-1))[1]? = some ⟨"a", 1⟩ ∧
    moveSection [⟨"a", 1⟩, ⟨"b", 2⟩, ⟨"c", 3⟩] 0 (-1) = [⟨"a", 1⟩, ⟨"b", 2⟩, ⟨"c", 3⟩] := by
  constructor
  · have h := ((C9_moveSection_bounds [⟨"a", 1⟩, ⟨"b", 2⟩, ⟨"c", 3⟩] 1 (-1)
      (by decide)).2.2 (by decide) (by decide)).2.1
    rw [h]
    rfl
  · exact (C9_moveSection_bounds [⟨"a", 1⟩, ⟨"b", 2⟩, ⟨"c", 3⟩] 0 (-1) (by decide)).1 rfl rfl

/-- Looking up any key other than the preempted one passes through the
filter-and-append of a named start untouched. -/
theorem lookup_filter_ne_key (m : InstanceMap) (nm other : String) (inst : EffectInstance)
    (h : other ≠ nm) :
    ((m.filter (fun q => q.1 != nm)) ++ [(nm, inst)]).lookup other = m.lookup other := by
  induction m with
  | nil =>
      simp [List.lookup, beq_eq_false_iff_ne.mpr h]
  | cons q t ih =>
      rcases q with ⟨k, v⟩
      by_cases hk : k = nm
      · subst hk
        simpa [List.filter_cons, List.lookup, beq_eq_false_iff_ne.mpr h] using ih
      · by_cases ho : other = k
        · subst ho
          simp [List.filter_cons, bne_iff_ne.mpr hk, List.lookup]
        · simpa [List.filter_cons, bne_iff_ne.mpr hk, List.lookup,
            beq_eq_false_iff_ne.mpr ho] using ih

/-- A named start's own key resolves to the freshly installed instance. -/
theorem lookup_filter_self_key (m : InstanceMap) (nm : String) (inst : EffectInstance) :
    ((m.filter (fun q => q.1 != nm)) ++ [(nm, inst)]).lookup nm = some inst := by
  induction m with
  | nil => simp [List.lookup]
  | cons q t ih =>
      rcases q with ⟨k, v⟩
      by_cases hk : k = nm
      · subst hk
        simpa [List.filter_cons] using ih
      · simpa [List.filter_cons, bne_iff_ne.mpr hk, List.lookup,
          beq_eq_false_iff_ne.mpr (Ne.symm hk)] using ih

/-- C3: starting All removes every named-section instance atomically before
installing the All instance, while starting a known named section preempts
only that section's own instance — every other section's entry, and the All
entry, resolve exactly as before. -/
theorem C3_all_preempts_named (known : List String) (m : InstanceMap) (nm : String)
    (inst : EffectInstance) (hn : nm ≠ "All") (hk : known.contains nm = true) :
    (∀ q ∈ (schedStart known m "All" inst).1, q.1 = "All") ∧
    (schedStart known m "All" inst).1.lookup "All" = some inst ∧
    (∀ other, other ≠ nm → (schedStart known m nm inst).1.lookup other = m.lookup other) ∧
    (schedStart known m nm inst).1.lookup nm = some inst := by
  refine ⟨?_, ?_, ?_, ?_⟩
  · intro q hq
    simp only [schedStart, if_pos rfl] at hq
    rw [List.mem_singleton.mp hq]
  · simp [schedStart, List.lookup]
  · intro other ho
    rw [schedStart, if_neg hn, if_pos hk]
    exact lookup_filter_ne_key m nm other inst ho
  · rw [schedStart, if_neg hn, if_pos hk]
    exact lookup_filter_self_key m nm inst

/-- C3 witness: with Front and Rear known and both Front and All active,
starting All leaves only the All entry, and starting Front leaves the All
entry untouched. -/
theorem C3_witness :
    (∀ q ∈ (schedStart ["Front", "Rear"] [("Front", sampleInstance), ("All", sampleInstance)]
      "All" sampleInstance2).1, q.1 = "All") ∧
    (schedStart ["Front", "Rear"] [("Front", sampleInstance), ("All", sampleInstance)]
      "Front" sampleInstance2).1.lookup "All" =
      ([("Front", sampleInstance), ("All", sampleInstance)] : InstanceMap).lookup "All" := by
  have h := C3_all_preempts_named ["Front", "Rear"]
    [("Front", sampleInstance), ("All", sampleInstance)] "Front" sampleInstance2
    (by decide) (by decide)
  exact ⟨h.1, h.2.2.1 "All" (by decide)⟩

/-- Every effect kind renders exactly one color per pixel of its section. -/
theorem renderKind_length (k : EffectKind) (n : Nat) (elapsed : ℚ) (p : EffectParams)
    (prev : List Rgb) : (renderKind k n elapsed p prev).length = n := by
  simp [renderKind]

/-- Pixels before the write offset and pixels past the written sequence are
carried over from the previous buffer untouched. -/
theorem writeRange_getElem?_outside (buf : List Rgb) (s : Nat) (cs : List Rgb) (i : Nat)
    (h : i < s ∨ s + cs.length ≤ i) : (writeRange buf s cs)[i]? = buf[i]? := by
  induction buf generalizing s cs i with
  | nil => simp [writeRange]
  | cons b bs ih =>
      cases s with
      | succ s0 =>
          cases i with
          | zero => simp [writeRange]
          | succ i0 =>
              have hrec := ih s0 cs i0 (by omega)
              simpa [writeRange] using hrec
      | zero =>
          cases cs with
          | nil => rfl
          | cons c cs0 =>
              cases i with
              | zero =>
                  exfalso
                  rcases h with h1 | h1
                  · omega
                  · simp only [List.length_cons] at h1
                    omega
              | succ i0 =>
                  have hlen : cs0.length ≤ i0 := by
                    rcases h with h1 | h1
                    · omega
                    · simp only [List.length_cons] at h1
                      omega
                  have hrec := ih 0 cs0 i0 (Or.inr (by omega))
                  simpa [writeRange] using hrec

/-- C2: rendering a tick of any effect kind on a section writes only pixels
inside the section's resolved range (start, count); every pixel outside it
is byte-identical to its value before the call. -/
theorem C2_render_touches_only_own_range (buf : List Rgb) (start count : Nat)
    (k : EffectKind) (elapsed : ℚ) (p : EffectParams) (i : Nat)
    (h : i < start ∨ start + count ≤ i) :
    (tickSection buf start count k elapsed p)[i]? = buf[i]? := by
  have hl := renderKind_length k count elapsed p ((buf.drop start).take count)
  exact writeRange_getElem?_outside buf start _ i (by rw [hl]; exact h)

/-- C2 witness: a color effect on the middle range of a four-pixel buffer
leaves the last pixel untouched. -/
theorem C2_witness :
    (tickSection [⟨1, 2, 3⟩, ⟨4, 5, 6⟩, ⟨7, 8, 9⟩, ⟨10, 11, 12⟩] 1 2 EffectKind.color 0
      sampleParams)[3]? = some ⟨10, 11, 12⟩ := by
  have h := C2_render_touches_only_own_range [⟨1, 2, 3⟩, ⟨4, 5, 6⟩, ⟨7, 8, 9⟩, ⟨10, 11, 12⟩]
    1 2 EffectKind.color 0 sampleParams 3 (by omega)
  rw [h]
  rfl

/-- Each hexadecimal digit character below 16 decodes back to its value, is
accepted by the regex character class, and is never the hash character. -/
theorem hexDigit_facts : ∀ n < 16, ∀ u : Bool,
    hexVal (hexDigit u n) = n ∧ isHexDigitJs (hexDigit u n) = true ∧ hexDigit u n ≠ '#' := by
  decide

/-- hexToRgb on an explicit six-hex-digit string, with and without the
leading hash: each two-digit group parses with radix 16. -/
theorem hexToRgb_six (d1 d2 d3 d4 d5 d6 : Char)
    (h : ([d1, d2, d3, d4, d5, d6]).all isHexDigitJs = true) (hd : d1 ≠ '#') :
    hexToRgb (String.mk [d1, d2, d3, d4, d5, d6]) =
      ⟨16 * hexVal d1 + hexVal d2, 16 * hexVal d3 + hexVal d4, 16 * hexVal d5 + hexVal d6⟩ ∧
    hexToRgb (String.mk ('#' :: [d1, d2, d3, d4, d5, d6])) =
      ⟨16 * hexVal d1 + hexVal d2, 16 * hexVal d3 + hexVal d4, 16 * hexVal d5 + hexVal d6⟩ := by
  have hm1 : hexMatch (String.mk [d1, d2, d3, d4, d5, d6]) = some [d1, d2, d3, d4, d5, d6] := by
    simp [hexMatch, stripHash, hd, h]
  have hm2 : hexMatch (String.mk ('#' :: [d1, d2, d3, d4, d5, d6])) =
      some [d1, d2, d3, d4, d5, d6] := by
    simp [hexMatch, stripHash, h]
  constructor
  · unfold hexToRgb
    rw [hm1]
    rfl
  · unfold hexToRgb
    rw [hm2]
    rfl

/-- C8: hexToRgb round-trips the six-hex-digit encoding of every RGB triple
with channels in 0..255, with or without a leading hash and in either digit
case, and answers the all-zero fallback triple on every string that does
not match the regex shape. -/
theorem C8_hexToRgb_roundtrip (r g b : Nat) (hr : r < 256) (hg : g < 256) (hb : b < 256)
    (hash upper : Bool) (s : String) (hs : hexShape s = false) :
    hexToRgb (encodeHex hash upper r g b) = ⟨r, g, b⟩ ∧ hexToRgb s = ⟨0, 0, 0⟩ := by
  constructor
  · have f1 := hexDigit_facts (r / 16) (by omega) upper
    have f2 := hexDigit_facts (r % 16) (by omega) upper
    have f3 := hexDigit_facts (g / 16) (by omega) upper
    have f4 := hexDigit_facts (g % 16) (by omega) upper
    have f5 := hexDigit_facts (b / 16) (by omega) upper
    have f6 := hexDigit_facts (b % 16) (by omega) upper
    have hall : ([hexDigit upper (r / 16), hexDigit upper (r % 16), hexDigit upper (g / 16),
        hexDigit upper (g % 16), hexDigit upper (b / 16), hexDigit upper (b % 16)]).all
          isHexDigitJs = true := by
      simp [f1.2.1, f2.2.1, f3.2.1, f4.2.1, f5.2.1, f6.2.1]
    have h6 := hexToRgb_six _ _ _ _ _ _ hall f1.2.2
    have e1 : 16 * (r / 16) + r % 16 = r := by omega
    have e2 : 16 * (g / 16) + g % 16 = g := by omega
    have e3 : 16 * (b / 16) + b % 16 = b := by omega
    cases hash
    · have he : encodeHex false upper r g b = String.mk
        [hexDigit upper (r / 16), hexDigit upper (r % 16), hexDigit upper (g / 16),
         hexDigit upper (g % 16), hexDigit upper (b / 16), hexDigit upper (b % 16)] := rfl
      rw [he, h6.1, f1.1, f2.1, f3.1, f4.1, f5.1, f6.1, e1, e2, e3]
    · have he : encodeHex true upper r g b = String.mk
        ('#' :: [hexDigit upper (r / 16), hexDigit upper (r % 16), hexDigit upper (g / 16),
         hexDigit upper (g % 16), hexDigit upper (b / 16), hexDigit upper (b % 16)]) := rfl
      rw [he, h6.2, f1.1, f2.1, f3.1, f4.1, f5.1, f6.1, e1, e2, e3]
  · have hcond : ((stripHash s.data).length == 6 && (stripHash s.data).all isHexDigitJs) =
        false := hs
    have hm : hexMatch s = none := by
      simp only [hexMatch]
      rw [hcond]
      rfl
    unfold hexToRgb
    rw [hm]

/-- C8 witness: the triple (171, 205, 239) round-trips through its lowercase
hash-prefixed encoding, and a non-matching string yields the fallback. -/
theorem C8_witness :
    hexToRgb (encodeHex true false 171 205 239) = ⟨171, 205, 239⟩ ∧
    hexToRgb "nope" = ⟨0, 0, 0⟩ :=
  C8_hexToRgb_roundtrip 171 205 239 (by decide) (by decide) (by decide) true false "nope"
    (by decide)

/-- The derived start of the next row is the current row's start plus its
count: consecutive resolved ranges are contiguous, with no gap. -/
theorem startAt_succ (sections : List CfgSection) (i : Nat) (hi : i < sections.length) :
    startAt sections (i + 1) = startAt sections i + (sections.getD i default).count := by
  unfold startAt
  rw [List.take_succ, List.map_append, List.sum_append, List.getElem?_eq_getElem hi,
    List.getD_eq_getElem sections default hi]
  simp

/-- With non-negative counts the derived starts are monotone in the index. -/
theorem startAt_mono (sections : List CfgSection) (hpos : ∀ s ∈ sections, 0 ≤ s.count)
    (i j : Nat) (hij : i ≤ j) : startAt sections i ≤ startAt sections j := by
  unfold startAt
  have hdecomp : sections.take j = sections.take i ++ (sections.take j).drop i := by
    conv_lhs => rw [← List.take_append_drop i (sections.take j)]
    rw [List.take_take, min_eq_left hij]
  rw [hdecomp, List.map_append, List.sum_append]
  have hnn : 0 ≤ (((sections.take j).drop i).map (fun s => s.count)).sum := by
    apply List.sum_nonneg
    intro x hx
    rcases List.mem_map.mp hx with ⟨s2, hs2, rfl⟩
    exact hpos s2 (List.take_subset j sections (List.drop_subset i _ hs2))
  exact le_add_of_nonneg_right hnn

/-- Resizing a row at or after position i leaves the first i rows, and hence
the derived start of row i, unchanged. -/
theorem take_updateSection (sections : List CfgSection) (k : Nat) (f : CfgField) (v : String)
    (i : Nat) (hik : i ≤ k) :
    (updateSection sections k f v).take i = sections.take i := by
  apply List.ext_getElem?
  intro m
  rw [List.getElem?_take, List.getElem?_take]
  by_cases hm : m < i
  · rw [if_pos hm, if_pos hm, updateSection, List.getElem?_mapIdx]
    have hmk : m ≠ k := by omega
    cases hx : sections[m]? <;> simp [hmk]
  · rw [if_neg hm, if_neg hm]

/-- Appending a fresh row leaves every existing prefix unchanged. -/
theorem take_addSection (sections : List CfgSection) (i : Nat) (hi : i ≤ sections.length) :
    (addSection sections).take i = sections.take i := by
  unfold addSection
  exact List.take_append_of_le_length hi

/-- C1: the derived start of each row equals the sum of the counts of all
preceding rows, so with non-negative counts consecutive resolved ranges are
contiguous with no gaps (first conjunct), ranges are pairwise disjoint in
list order (second conjunct), the last range ends at the total (third
conjunct); and since startAt is recomputed from the current list on every
render, a resize at or after a row, or an insert at the end, leaves that
row's derived start unchanged while all subsequent starts follow the new
order (fourth and fifth conjuncts). -/
theorem C1_starts_derived_contiguous_disjoint (sections : List CfgSection)
    (hpos : ∀ s ∈ sections, 0 ≤ s.count) (i j : Nat) (hij : i < j) (hj : j ≤ sections.length)
    (k : Nat) (f : CfgField) (v : String) (hik : i ≤ k) :
    startAt sections (i + 1) = startAt sections i + (sections.getD i default).count ∧
    startAt sections i + (sections.getD i default).count ≤ startAt sections j ∧
    startAt sections sections.length = totalLeds sections ∧
    startAt (updateSection sections k f v) i = startAt sections i ∧
    startAt (addSection sections) i = startAt sections i := by
  have hi : i < sections.length := by omega
  refine ⟨startAt_succ sections i hi, ?_, ?_, ?_, ?_⟩
  · rw [← startAt_succ sections i hi]
    exact startAt_mono sections hpos (i + 1) j hij
  · unfold startAt totalLeds
    rw [List.take_length]
  · unfold startAt
    rw [take_updateSection sections k f v i hik]
  · unfold startAt
    rw [take_addSection sections i (by omega)]

/-- C1 witness: on a concrete three-row list the first range is contiguous
with the second and disjoint from the third. -/
theorem C1_witness :
    startAt [⟨"Front", 50⟩, ⟨"Rear", 30⟩, ⟨"Top", 10⟩] (0 + 1) =
      startAt [⟨"Front", 50⟩, ⟨"Rear", 30⟩, ⟨"Top", 10⟩] 0 +
        (([⟨"Front", 50⟩, ⟨"Rear", 30⟩, ⟨"Top", 10⟩] : List CfgSection).getD 0 default).count ∧
    startAt [⟨"Front", 50⟩, ⟨"Rear", 30⟩, ⟨"Top", 10⟩] 0 +
        (([⟨"Front", 50⟩, ⟨"Rear", 30⟩, ⟨"Top", 10⟩] : List CfgSection).getD 0 default).count ≤
      startAt [⟨"Front", 50⟩, ⟨"Rear", 30⟩, ⟨"Top", 10⟩] 2 := by
  have h := C1_starts_derived_contiguous_disjoint [⟨"Front", 50⟩, ⟨"Rear", 30⟩, ⟨"Top", 10⟩]
    (by decide) 0 2 (by decide) (by decide) 1 CfgField.name "X" (by decide)
  exact ⟨h.1, h.2.1⟩
